import Mathlib

/-!
Shallow embedding of the 3strategie trading analyzers.

Sources:
* `src/Kody/P_USDJPY/3_analyze-usdjpy-lambda.py` — object-store (S3) deployment:
  indicator functions `rsi`, `z_score`, and the per-strategy position lifecycle
  `strategy` (namespace `Usdjpy` below).
* `src/Kody/P_EURUSD/2_eurusd-analyzer.py` — relational-store deployment:
  `safe_rsi`, the inline z-score / fractal computations of `lambda_handler`,
  and `handle_strategy` (namespace `Eurusd` below).

Machine reals of the Python source are modelled as exact rationals `ℚ` for the
purely arithmetic parts (position lifecycle, RSI, SMA/fractal) and as `ℝ` where
the source uses `math.log` / `statistics.stdev` (z-score).  Python's `round`
(banker's rounding to a number of decimal digits) is modelled exactly by
`pyRound` / `roundTo`.  Timestamps are opaque naturals.
-/

/-- Python `round(x)` on an exact value: round half to even, returning an
integer. -/
def pyRound (x : ℚ) : ℤ :=
  if x - ⌊x⌋ < 1/2 then ⌊x⌋
  else if 1/2 < x - ⌊x⌋ then ⌊x⌋ + 1
  else if ⌊x⌋ % 2 = 0 then ⌊x⌋ else ⌊x⌋ + 1

/-- Python `round(x, d)` on an exact value: round to `d` decimal digits,
half to even. -/
def roundTo (x : ℚ) (d : ℕ) : ℚ :=
  (pyRound (x * 10 ^ d) : ℚ) / 10 ^ d

/-- The last `k` elements of a list (Python slice `l[-k:]` for `k ≤ len(l)`,
the whole list otherwise). -/
def lastN {α : Type} (l : List α) (k : ℕ) : List α :=
  l.drop (l.length - k)

/-- Consecutive differences `l[i] - l[i-1]` (the per-step price deltas both RSI
variants compute over the last `n+1` samples). -/
def deltas : List ℚ → List ℚ
  | a :: b :: rest => (b - a) :: deltas (b :: rest)
  | _ => []

/-- Per-step gains `max(vals[i] - vals[i-1], 0)` (identical arithmetic in both
RSI variants). -/
def gains (l : List ℚ) : List ℚ :=
  (deltas l).map (fun d => max d 0)

/-- Per-step losses `max(vals[i-1] - vals[i], 0)` (identical arithmetic in both
RSI variants). -/
def losses (l : List ℚ) : List ℚ :=
  (deltas l).map (fun d => max (-d) 0)

/-- Position direction. -/
inductive Dir : Type
  | LONG : Dir
  | SHORT : Dir
deriving DecidableEq

namespace Usdjpy

/-- `EPS = 1e-5`, the epsilon-tolerance of the TP/SL comparisons. -/
def EPS : ℚ := 1/100000

/-- `rsi(vals, n)` of `3_analyze-usdjpy-lambda.py` (lines 64-84): `None` for
fewer than `n+1` samples; otherwise simple-average gains/losses over the last
`n` deltas, returning `100` whenever the average loss is zero. -/
def rsi (vals : List ℚ) (n : ℕ) : Option ℚ :=
  if vals.length < n + 1 then none
  else
    let t := lastN vals (n + 1)
    let avg_loss := (losses t).sum / n
    if avg_loss = 0 then some 100
    else some (100 - 100 / (1 + (gains t).sum / n / avg_loss))

/-- An open position as persisted in `state/<name>.json`: keys `open_time`,
`open_price`, `direction`, `sl_price`, `tp_price` plus the optional
`z_score` extra. -/
structure Pos : Type where
  open_time : ℕ
  open_price : ℚ
  direction : Dir
  sl_price : ℚ
  tp_price : ℚ
  z : Option ℚ
deriving DecidableEq

/-- A closed trade as persisted under `trades/<name>/`: the position fields
plus `close_time`, `close_price`, `result_pips`. -/
structure Trade : Type where
  pos : Pos
  close_time : ℕ
  close_price : ℚ
  result_pips : ℚ
deriving DecidableEq

/-- The S3 state one strategy owns: at most one open position
(`state/<name>.json`, empty dict = no position) and the append-only set of
closed-trade objects. -/
structure State : Type where
  pos : Option Pos
  trades : List Trade
deriving DecidableEq

/-- `hit_tp` of line 167: direction-aware epsilon-tolerant TP test. -/
def hitTp (price : ℚ) (p : Pos) : Bool :=
  if p.direction = Dir.LONG then decide (p.tp_price - EPS ≤ price)
  else decide (price ≤ p.tp_price + EPS)

/-- `hit_sl` of line 168: direction-aware epsilon-tolerant SL test. -/
def hitSl (price : ℚ) (p : Pos) : Bool :=
  if p.direction = Dir.LONG then decide (price ≤ p.sl_price + EPS)
  else decide (p.sl_price - EPS ≤ price)

/-- The trade record written at lines 176-183 when an open position's TP or SL
is hit: the position's fields plus `close_time`, `close_price := price` and
`result_pips` computed from the hit target price (`tp_price` if `hit_tp` else
`sl_price`), direction-signed, scaled by 100 (1 JPY pip = 0.01) and rounded to
one decimal. -/
def closedTrade (p : Pos) (price : ℚ) (ts : ℕ) : Trade :=
  ⟨p, ts, price,
   roundTo ((if p.direction = Dir.LONG then
               (if hitTp price p then p.tp_price else p.sl_price) - p.open_price
             else
               -((if hitTp price p then p.tp_price else p.sl_price) - p.open_price)) * 100) 1⟩

/-- The position record written at lines 194-208 when a signal fires: SL/TP at
`price ∓/± 0.01·pips`, rounded to 3 decimals (LONG wins when both signals are
set). -/
def newPos (openLong : Bool) (sl tp price : ℚ) (ts : ℕ) (extra : Option ℚ) : Pos :=
  ⟨ts, price, if openLong then Dir.LONG else Dir.SHORT,
   if openLong then roundTo (price - (1/100) * sl) 3 else roundTo (price + (1/100) * sl) 3,
   if openLong then roundTo (price + (1/100) * tp) 3 else roundTo (price - (1/100) * tp) 3,
   extra⟩

/-- The inner `strategy(name, sl, tp, open_long, open_short, extra)` of
`lambda_handler` (lines 147-209): if a position is open, test TP/SL and either
close it (append `closedTrade`, clear the slot) or leave the state unchanged —
the entry signals are not consulted; otherwise open `newPos` when a signal
fires. -/
def strategy (sl tp : ℚ) (openLong openShort : Bool) (price : ℚ) (ts : ℕ)
    (extra : Option ℚ) (s : State) : State :=
  match s.pos with
  | some p =>
    if hitTp price p || hitSl price p then
      { pos := none, trades := s.trades ++ [closedTrade p price ts] }
    else s
  | none =>
    if openLong || openShort then
      { pos := some (newPos openLong sl tp price ts extra), trades := s.trades }
    else s

/-- Wiring of lines 217-220: the classic strategy's LONG signal,
`rsi_val is not None and rsi_val < 30`. -/
def classicOpenLong (prices : List ℚ) : Bool :=
  match rsi prices 14 with
  | none => false
  | some v => decide (v < 30)

/-- Wiring of lines 217-220: the classic strategy's SHORT signal,
`rsi_val is not None and rsi_val > 70`. -/
def classicOpenShort (prices : List ℚ) : Bool :=
  match rsi prices 14 with
  | none => false
  | some v => decide (70 < v)

/-- Fractal-high test of line 238: `prices[-3] == max(prices[-5:])`, with no
strict-neighbour conditions. -/
def isHi (l : List ℚ) : Bool :=
  match lastN l 5 with
  | [a, b, c, d, e] => decide (c = max a (max b (max c (max d e))))
  | _ => false

/-- Fractal-low test of line 239: `prices[-3] == min(prices[-5:])`. -/
def isLo (l : List ℚ) : Bool :=
  match lastN l 5 with
  | [a, b, c, d, e] => decide (c = min a (min b (min c (min d e))))
  | _ => false

end Usdjpy

namespace Eurusd

/-- `safe_rsi(vals, n)` of `2_eurusd-analyzer.py` (lines 381-414): same
averaging as `Usdjpy.rsi`, but when the average loss is zero it distinguishes
positive average gain (`100.0`) from zero (`50.0`). -/
def safe_rsi (vals : List ℚ) (n : ℕ) : Option ℚ :=
  if vals.length < n + 1 then none
  else
    let relevant := lastN vals (n + 1)
    if relevant.length < 2 then none
    else
      let g := gains relevant
      let l := losses relevant
      if g.length < n then none
      else
        let avg_gain := g.sum / n
        let avg_loss := l.sum / n
        if avg_loss = 0 then some (if 0 < avg_gain then 100 else 50)
        else some (100 - 100 / (1 + avg_gain / avg_loss))

/-- A row of one of the `eurusd_*trades` tables; `close_time IS NULL` marks the
trade open.  `z` models the optional `z_score` extra column. -/
structure Trade : Type where
  open_time : ℕ
  open_price : ℚ
  direction : Dir
  z : Option ℚ
  sl_price : ℚ
  tp_price : ℚ
  close_time : Option ℕ
  close_price : Option ℚ
  result_pips : Option ℚ
deriving DecidableEq

/-- A trade row is open when `close_time IS NULL`. -/
def isOpen (t : Trade) : Bool :=
  t.close_time = none

/-- `hit_tp` of line 427. -/
def hitTp (price eps : ℚ) (t : Trade) : Bool :=
  if t.direction = Dir.LONG then decide (t.tp_price - eps ≤ price)
  else decide (price ≤ t.tp_price + eps)

/-- `hit_sl` of line 428. -/
def hitSl (price eps : ℚ) (t : Trade) : Bool :=
  if t.direction = Dir.LONG then decide (price ≤ t.sl_price + eps)
  else decide (t.sl_price - eps ≤ price)

/-- The close pass of `handle_strategy` (lines 425-434) applied to one row:
an open row whose TP or SL is hit gets `close_time`, `close_price := price`
and `result_pips` set, where the PnL is computed from the hit target price
(`tp_price` if `hit_tp` else `sl_price`) scaled by ±10000 and rounded to one
decimal.  Closed rows are untouched. -/
def closeOne (price eps : ℚ) (ts : ℕ) (t : Trade) : Trade :=
  if t.close_time = none then
    if hitTp price eps t || hitSl price eps t then
      { t with
        close_time := some ts,
        close_price := some price,
        result_pips := some (roundTo
          (((if hitTp price eps t then t.tp_price else t.sl_price) - t.open_price) *
            (if t.direction = Dir.LONG then 10000 else -10000)) 1) }
    else t
  else t

/-- The row inserted at lines 446-460 when a signal fires and no row is open:
direction LONG preferred, SL/TP at `price ∓/± 0.0001·pips` rounded to 6
decimals, close fields NULL. -/
def newTrade (longC : Bool) (sl tp price : ℚ) (ts : ℕ) (extra : Option ℚ) : Trade :=
  ⟨ts, price, if longC then Dir.LONG else Dir.SHORT, extra,
   if longC then roundTo (price - (1/10000) * sl) 6 else roundTo (price + (1/10000) * sl) 6,
   if longC then roundTo (price + (1/10000) * tp) 6 else roundTo (price - (1/10000) * tp) 6,
   none, none, none⟩

/-- `handle_strategy(cur, table, open_cond, sl, tp, price, time, eps, ...)`
(lines 417-461) as a function on the table: close every open row whose TP/SL
is hit (`closeOne` on every row); then, only if no row remains open, insert
`newTrade` when a signal fires. -/
def handle_strategy (longC shortC : Bool) (sl tp price : ℚ) (ts : ℕ) (eps : ℚ)
    (extra : Option ℚ) (tbl : List Trade) : List Trade :=
  if (tbl.map (closeOne price eps ts)).any isOpen then tbl.map (closeOne price eps ts)
  else if longC || shortC then
    tbl.map (closeOne price eps ts) ++ [newTrade longC sl tp price ts extra]
  else tbl.map (closeOne price eps ts)

/-- Number of open rows in a table. -/
def countOpen (tbl : List Trade) : ℕ :=
  (tbl.filter isOpen).length

/-- Fractal-high test of line 530: `prices[-3] == max(prices[-5:]) and
prices[-3] > prices[-4] and prices[-3] > prices[-2]`. -/
def isHigh (l : List ℚ) : Bool :=
  match lastN l 5 with
  | [a, b, c, d, e] =>
      decide (c = max a (max b (max c (max d e)))) && decide (b < c) && decide (d < c)
  | _ => false

/-- Fractal-low test of line 531. -/
def isLow (l : List ℚ) : Bool :=
  match lastN l 5 with
  | [a, b, c, d, e] =>
      decide (c = min a (min b (min c (min d e)))) && decide (c < b) && decide (c < d)
  | _ => false

end Eurusd

/-! The z-score computations use `math.log` and `statistics.stdev`, so they are
modelled over `ℝ`. -/

/-- `statistics.fmean`: arithmetic mean. -/
noncomputable def fmean (l : List ℝ) : ℝ :=
  l.sum / l.length

/-- The sample variance underlying `statistics.stdev`
(denominator `n - 1`). -/
noncomputable def svar (l : List ℝ) : ℝ :=
  ((l.map (fun x => (x - fmean l) ^ 2)).sum) / ((l.length : ℝ) - 1)

/-- `statistics.stdev`: sample standard deviation. -/
noncomputable def stdev (l : List ℝ) : ℝ :=
  Real.sqrt (svar l)

/-- Consecutive log-returns `log(vals[i] / vals[i-1])` (both deployments
compute these over the window). -/
noncomputable def logDeltas : List ℝ → List ℝ
  | a :: b :: rest => Real.log (b / a) :: logDeltas (b :: rest)
  | _ => []

namespace Usdjpy

open scoped Classical

/-- `z_score(vals, w)` of `3_analyze-usdjpy-lambda.py` (lines 86-104): `None`
for fewer than `w+1` samples; otherwise `w` log-returns over the window, with
mean and standard deviation over `rets[:-1]` (the most recent return is
excluded); `None` when the standard deviation is zero, else the z-score of the
most recent return. -/
noncomputable def z_score (vals : List ℝ) (w : ℕ) : Option ℝ :=
  if vals.length < w + 1 then none
  else
    let rets := logDeltas (lastN vals (w + 1))
    let m := fmean rets.dropLast
    let s := stdev rets.dropLast
    if s = 0 then none
    else some ((rets.getLast?.getD 0 - m) / s)

/-- Anomaly LONG signal of lines 225-228: `z is not None and z <= -2.5`. -/
def anomalyOpenLong (prices : List ℝ) : Prop :=
  ∃ z, z_score prices 50 = some z ∧ z ≤ -(5/2)

/-- Anomaly SHORT signal of lines 225-228: `z is not None and z >= 2.5`. -/
def anomalyOpenShort (prices : List ℝ) : Prop :=
  ∃ z, z_score prices 50 = some z ∧ (5/2) ≤ z

end Usdjpy

namespace Eurusd

open scoped Classical

/-- The inline z computation of `lambda_handler` (lines 506-516), executed when
at least 51 prices exist: 50 log-returns over the window, `ret` the most recent
log-return, mean and standard deviation over all 50 returns, and — unlike the
USDJPY variant — `z = 0.0` (not "no value") when the standard deviation is
zero or the return list is empty. -/
noncomputable def anomZ (prices : List ℝ) : Option ℝ :=
  if prices.length < 51 then none
  else
    let log_returns := logDeltas (lastN prices 51)
    if log_returns = [] then some 0
    else
      let ret := log_returns.getLast?.getD 0
      let m := fmean log_returns
      let s := if 1 < log_returns.length then stdev log_returns else 0
      some (if s ≠ 0 then (ret - m) / s else 0)

/-- Anomaly LONG entry condition of line 520: `z <= -2.5 and rsi14 < 40`. -/
def anomalyOpenLong (z : ℝ) (rsi14 : ℚ) : Prop :=
  z ≤ -(5/2) ∧ rsi14 < 40

/-- Anomaly SHORT entry condition of line 520: `z >= 2.5 and rsi14 > 60`. -/
def anomalyOpenShort (z : ℝ) (rsi14 : ℚ) : Prop :=
  (5/2) ≤ z ∧ 60 < rsi14

end Eurusd

namespace Usdjpy

open scoped Classical

/-- Wiring of lines 225-228 as the boolean actually passed to `strategy`:
the anomaly strategy's LONG signal, `z is not None and z <= -Z_TH`
(`Z_TH = 2.5`). -/
noncomputable def anomalyOpenLongB (prices : List ℝ) : Bool :=
  match z_score prices 50 with
  | none => false
  | some z => decide (z ≤ -(5/2))

/-- Wiring of lines 225-228: the anomaly strategy's SHORT signal,
`z is not None and z >= Z_TH`. -/
noncomputable def anomalyOpenShortB (prices : List ℝ) : Bool :=
  match z_score prices 50 with
  | none => false
  | some z => decide ((5/2) ≤ z)

/-- `statistics.fmean` over the rational-modelled prices (used for the
SMA50 of line 235). -/
def fmeanQ (l : List ℚ) : ℚ :=
  l.sum / l.length

/-- The fractal-strategy dispatch of `lambda_handler` (lines 234-243): the
`strategy("fractal", SL3, TP3, ...)` call (SL3 = 12, TP3 = 24) is made only
when at least `SMA_LEN + 5 = 55` prices exist; signals are fractal low/high
combined with the price's side of the SMA50; with fewer prices the strategy is
not invoked at all and the state is returned untouched. -/
def fractalStep (prices : List ℚ) (price : ℚ) (ts : ℕ) (s : State) : State :=
  if 50 + 5 ≤ prices.length then
    strategy 12 24
      (isLo prices && decide (fmeanQ (lastN prices 50) < price))
      (isHi prices && decide (price < fmeanQ (lastN prices 50)))
      price ts none s
  else s

end Usdjpy

namespace Eurusd

open scoped Classical

/-! The EURUSD `lambda_handler` computes its prices, indicators and table
updates from one float price list; its per-cycle strategy processing
(lines 494-541) is therefore modelled once more over `ℝ`, with definitions
mirroring the rational ones used for the per-table theorems. -/

/-- Consecutive differences over the real-valued price list (as in
`safe_rsi`'s delta loop). -/
noncomputable def deltasR : List ℝ → List ℝ
  | a :: b :: rest => (b - a) :: deltasR (b :: rest)
  | _ => []

/-- Per-step gains over `ℝ`. -/
noncomputable def gainsR (l : List ℝ) : List ℝ :=
  (deltasR l).map (fun d => max d 0)

/-- Per-step losses over `ℝ`. -/
noncomputable def lossesR (l : List ℝ) : List ℝ :=
  (deltasR l).map (fun d => max (-d) 0)

/-- `safe_rsi(vals, n)` (lines 381-414) over the real-valued price list;
structure identical to `safe_rsi`. -/
noncomputable def safe_rsiR (vals : List ℝ) (n : ℕ) : Option ℝ :=
  if vals.length < n + 1 then none
  else
    let relevant := lastN vals (n + 1)
    if relevant.length < 2 then none
    else
      let g := gainsR relevant
      let l := lossesR relevant
      if g.length < n then none
      else
        let avg_gain := g.sum / n
        let avg_loss := l.sum / n
        if avg_loss = 0 then some (if 0 < avg_gain then 100 else 50)
        else some (100 - 100 / (1 + avg_gain / avg_loss))

/-- Python `round(x)` over `ℝ`: round half to even. -/
noncomputable def pyRoundR (x : ℝ) : ℤ :=
  if x - ⌊x⌋ < 1/2 then ⌊x⌋
  else if 1/2 < x - ⌊x⌋ then ⌊x⌋ + 1
  else if ⌊x⌋ % 2 = 0 then ⌊x⌋ else ⌊x⌋ + 1

/-- Python `round(x, d)` over `ℝ`. -/
noncomputable def roundToR (x : ℝ) (d : ℕ) : ℝ :=
  (pyRoundR (x * 10 ^ d) : ℝ) / 10 ^ d

/-- A row of one of the `eurusd_*trades` tables with real-valued prices
(fields as in `Trade`). -/
structure TradeR : Type where
  open_time : ℕ
  open_price : ℝ
  direction : Dir
  z : Option ℝ
  sl_price : ℝ
  tp_price : ℝ
  close_time : Option ℕ
  close_price : Option ℝ
  result_pips : Option ℝ

/-- A real-valued trade row is open when `close_time IS NULL`. -/
def isOpenR (t : TradeR) : Bool :=
  t.close_time = none

/-- `hit_tp` of line 427 over `ℝ`. -/
noncomputable def hitTpR (price eps : ℝ) (t : TradeR) : Bool :=
  if t.direction = Dir.LONG then decide (t.tp_price - eps ≤ price)
  else decide (price ≤ t.tp_price + eps)

/-- `hit_sl` of line 428 over `ℝ`. -/
noncomputable def hitSlR (price eps : ℝ) (t : TradeR) : Bool :=
  if t.direction = Dir.LONG then decide (price ≤ t.sl_price + eps)
  else decide (t.sl_price - eps ≤ price)

/-- The close pass of `handle_strategy` (lines 425-434) on one real-valued
row; mirrors `closeOne`. -/
noncomputable def closeOneR (price eps : ℝ) (ts : ℕ) (t : TradeR) : TradeR :=
  if t.close_time = none then
    if hitTpR price eps t || hitSlR price eps t then
      { t with
        close_time := some ts,
        close_price := some price,
        result_pips := some (roundToR
          (((if hitTpR price eps t then t.tp_price else t.sl_price) - t.open_price) *
            (if t.direction = Dir.LONG then 10000 else -10000)) 1) }
    else t
  else t

/-- The row inserted at lines 446-460, over `ℝ`; mirrors `newTrade`. -/
noncomputable def newTradeR (longC : Bool) (sl tp price : ℝ) (ts : ℕ)
    (extra : Option ℝ) : TradeR :=
  ⟨ts, price, if longC then Dir.LONG else Dir.SHORT, extra,
   if longC then roundToR (price - (1/10000) * sl) 6 else roundToR (price + (1/10000) * sl) 6,
   if longC then roundToR (price + (1/10000) * tp) 6 else roundToR (price - (1/10000) * tp) 6,
   none, none, none⟩

/-- `handle_strategy` (lines 417-461) over real-valued rows; mirrors
`handle_strategy`. -/
noncomputable def handle_strategyR (longC shortC : Bool) (sl tp price : ℝ) (ts : ℕ)
    (eps : ℝ) (extra : Option ℝ) (tbl : List TradeR) : List TradeR :=
  if (tbl.map (closeOneR price eps ts)).any isOpenR then tbl.map (closeOneR price eps ts)
  else if longC || shortC then
    tbl.map (closeOneR price eps ts) ++ [newTradeR longC sl tp price ts extra]
  else tbl.map (closeOneR price eps ts)

/-- Fractal-high test of line 530 over `ℝ`. -/
noncomputable def isHighR (l : List ℝ) : Bool :=
  match lastN l 5 with
  | [a, b, c, d, e] =>
      decide (c = max a (max b (max c (max d e)))) && decide (b < c) && decide (d < c)
  | _ => false

/-- Fractal-low test of line 531 over `ℝ`. -/
noncomputable def isLowR (l : List ℝ) : Bool :=
  match lastN l 5 with
  | [a, b, c, d, e] =>
      decide (c = min a (min b (min c (min d e)))) && decide (c < b) && decide (c < d)
  | _ => false

/-- The per-cycle strategy processing of `lambda_handler` (lines 494-541) as a
function of the price list and the three trade tables.  When
`safe_rsi(prices, 14)` is `None` all strategy processing is skipped and every
table is returned untouched.  Otherwise: the classic strategy always runs
(SL1/TP1 = 20/30, signals `rsi14 < 30` / `rsi14 > 70`); the anomaly strategy
runs only when at least 51 prices exist, with the z value of lines 508-516
(`anomZ`, whose body is exactly that computation, yields `some z` under this
guard), SL2/TP2 = 15/25 and the `z_score` extra column `round(z, 2)`; the
fractal strategy runs only when `len(prices) >= SMA_LEN = 50` (and `>= 5`),
with the SMA50 and strict fractal tests, SL3/TP3 = 12/24.  The current price
is `prices[-1]` and `EPS = 1e-5`. -/
noncomputable def cycle (prices : List ℝ) (ts : ℕ)
    (tbl1 tbl2 tbl3 : List TradeR) : List TradeR × List TradeR × List TradeR :=
  match safe_rsiR prices 14 with
  | none => (tbl1, tbl2, tbl3)
  | some rsi14 =>
    let p_now := prices.getLast?.getD 0
    let tbl1' := handle_strategyR (decide (rsi14 < 30)) (decide (70 < rsi14))
      20 30 p_now ts (1/100000) none tbl1
    let tbl2' := if 51 ≤ prices.length then
        let z := (anomZ prices).getD 0
        handle_strategyR (decide (z ≤ -(5/2) ∧ rsi14 < 40))
          (decide ((5/2) ≤ z ∧ 60 < rsi14))
          15 25 p_now ts (1/100000) (some (roundToR z 2)) tbl2
      else tbl2
    let tbl3' := if 50 ≤ prices.length ∧ 5 ≤ prices.length then
        handle_strategyR (isLowR prices && decide (fmean (lastN prices 50) < p_now))
          (isHighR prices && decide (p_now < fmean (lastN prices 50)))
          12 24 p_now ts (1/100000) none tbl3
      else tbl3
    (tbl1', tbl2', tbl3')

end Eurusd

/-- A concrete strictly increasing 20-sample price history. -/
def incr20 : List ℚ :=
  [1, 2, 3, 4, 5, 6, 7, 8, 9, 10, 11, 12, 13, 14, 15, 16, 17, 18, 19, 20]

/-!  Theorems. -/

theorem pyRound_ge (x : ℚ) : x - 1/2 ≤ (pyRound x : ℚ) := by
  have h1 : ((⌊x⌋ : ℤ) : ℚ) ≤ x := Int.floor_le x
  have h2 : x < ((⌊x⌋ : ℤ) : ℚ) + 1 := Int.lt_floor_add_one x
  unfold pyRound
  split
  · linarith
  · split
    · push_cast
      linarith
    · split
      · linarith
      · push_cast
        linarith

theorem pyRound_le (x : ℚ) : (pyRound x : ℚ) ≤ x + 1/2 := by
  have h1 : ((⌊x⌋ : ℤ) : ℚ) ≤ x := Int.floor_le x
  have h2 : x < ((⌊x⌋ : ℤ) : ℚ) + 1 := Int.lt_floor_add_one x
  unfold pyRound
  split
  · linarith
  next hlt =>
    push_cast at hlt ⊢
    split
    next hgt => linarith
    next hge =>
      have heq : x - ((⌊x⌋ : ℤ) : ℚ) = 1/2 := le_antisymm (not_lt.mp hge) (not_lt.mp hlt)
      split
      · linarith
      · linarith

theorem roundTo_ge (x : ℚ) (d : ℕ) : x - 1 / (2 * 10 ^ d) ≤ roundTo x d := by
  have hp : (0:ℚ) < 10 ^ d := by positivity
  have h := pyRound_ge (x * 10 ^ d)
  unfold roundTo
  rw [le_div_iff₀ hp]
  have : (x - 1 / (2 * 10 ^ d)) * 10 ^ d = x * 10 ^ d - 1/2 := by
    field_simp
    ring
  rw [this]
  exact h

theorem roundTo_le (x : ℚ) (d : ℕ) : roundTo x d ≤ x + 1 / (2 * 10 ^ d) := by
  have hp : (0:ℚ) < 10 ^ d := by positivity
  have h := pyRound_le (x * 10 ^ d)
  unfold roundTo
  rw [div_le_iff₀ hp]
  have : (x + 1 / (2 * 10 ^ d)) * 10 ^ d = x * 10 ^ d + 1/2 := by
    field_simp
    ring
  rw [this]
  exact h

namespace Eurusd

theorem closeOne_of_closed (price eps : ℚ) (ts : ℕ) (t : Trade)
    (h : ¬ t.close_time = none) : closeOne price eps ts t = t := by
  unfold closeOne
  rw [if_neg h]

theorem closeOne_of_not_hit (price eps : ℚ) (ts : ℕ) (t : Trade)
    (h : (hitTp price eps t || hitSl price eps t) = false) :
    closeOne price eps ts t = t := by
  unfold closeOne
  split
  · rw [h]
    simp
  · rfl

theorem closeTime_closeOne_of_hit (price eps : ℚ) (ts : ℕ) (t : Trade)
    (h1 : t.close_time = none) (h2 : (hitTp price eps t || hitSl price eps t) = true) :
    (closeOne price eps ts t).close_time = some ts := by
  unfold closeOne
  rw [if_pos h1, h2]
  simp

theorem isOpen_of_closeOne_isOpen (price eps : ℚ) (ts : ℕ) (t : Trade)
    (h : isOpen (closeOne price eps ts t) = true) : isOpen t = true := by
  by_cases hc : t.close_time = none
  · unfold isOpen
    simp [hc]
  · rw [closeOne_of_closed price eps ts t hc] at h
    exact h

theorem closeOne_idem (price eps : ℚ) (ts : ℕ) (t : Trade) :
    closeOne price eps ts (closeOne price eps ts t) = closeOne price eps ts t := by
  by_cases hc : t.close_time = none
  · by_cases hh : (hitTp price eps t || hitSl price eps t) = true
    · have h3 := closeTime_closeOne_of_hit price eps ts t hc hh
      apply closeOne_of_closed
      rw [h3]
      simp
    · rw [closeOne_of_not_hit price eps ts t (Bool.eq_false_iff.mpr hh)]
      rw [closeOne_of_not_hit price eps ts t (Bool.eq_false_iff.mpr hh)]
  · rw [closeOne_of_closed price eps ts t hc, closeOne_of_closed price eps ts t hc]

theorem map_closeOne_idem (price eps : ℚ) (ts : ℕ) (tbl : List Trade) :
    (tbl.map (closeOne price eps ts)).map (closeOne price eps ts) =
      tbl.map (closeOne price eps ts) := by
  rw [List.map_map]
  apply List.map_congr_left
  intro t _
  exact closeOne_idem price eps ts t

theorem countOpen_map_closeOne_le (price eps : ℚ) (ts : ℕ) (tbl : List Trade) :
    countOpen (tbl.map (closeOne price eps ts)) ≤ countOpen tbl := by
  induction tbl with
  | nil => simp [countOpen]
  | cons t rest ih =>
    unfold countOpen at ih ⊢
    simp only [List.map_cons, List.filter_cons]
    by_cases h : isOpen (closeOne price eps ts t) = true
    · have h2 := isOpen_of_closeOne_isOpen price eps ts t h
      simp only [h, h2, if_pos, List.length_cons]
      omega
    · rw [Bool.eq_false_iff.mpr h]
      by_cases h2 : isOpen t = true
      · simp only [h2, if_pos, if_neg, List.length_cons]
        simp only [Bool.false_eq_true, if_false]
        omega
      · rw [Bool.eq_false_iff.mpr h2]
        simpa using ih

theorem countOpen_eq_zero_of_not_any (tbl : List Trade)
    (h : tbl.any isOpen = false) : countOpen tbl = 0 := by
  unfold countOpen
  rw [List.length_eq_zero, List.filter_eq_nil_iff]
  intro a ha
  have := List.any_eq_false.mp h a ha
  simp [this]

theorem countOpen_append (l1 l2 : List Trade) :
    countOpen (l1 ++ l2) = countOpen l1 + countOpen l2 := by
  unfold countOpen
  rw [List.filter_append, List.length_append]

theorem isOpen_newTrade (longC : Bool) (sl tp price : ℚ) (ts : ℕ) (ex : Option ℚ) :
    isOpen (newTrade longC sl tp price ts ex) = true := rfl

end Eurusd


namespace Usdjpy

theorem strategy_of_flat (sl tp : ℚ) (oL oS : Bool) (price : ℚ) (ts : ℕ)
    (ex : Option ℚ) (tr : List Trade) :
    strategy sl tp oL oS price ts ex ⟨none, tr⟩ =
      if (oL || oS) = true then ⟨some (newPos oL sl tp price ts ex), tr⟩
      else ⟨none, tr⟩ := rfl

theorem strategy_of_open (sl tp : ℚ) (oL oS : Bool) (price : ℚ) (ts : ℕ)
    (ex : Option ℚ) (p : Pos) (tr : List Trade) :
    strategy sl tp oL oS price ts ex ⟨some p, tr⟩ =
      if (hitTp price p || hitSl price p) = true then
        ⟨none, tr ++ [closedTrade p price ts]⟩
      else ⟨some p, tr⟩ := rfl

theorem strategy_trades_of_flat (sl tp : ℚ) (oL oS : Bool) (price : ℚ) (ts : ℕ)
    (ex : Option ℚ) (tr : List Trade) :
    (strategy sl tp oL oS price ts ex ⟨none, tr⟩).trades = tr := by
  rw [strategy_of_flat]
  split <;> rfl

end Usdjpy

/-- Claim C1: for every strategy and every single evaluation of one new price
sample, if at most one open Position exists for that strategy before the
evaluation, then at most one open Position exists for it afterwards.  EURUSD
conjunct: `handle_strategy` maps a table with at most one open row to a table
with at most one open row.  USDJPY conjunct: the per-strategy slot holds an
optional position both before and after `strategy`, so at most one open
position exists afterwards structurally. -/
theorem C1_at_most_one_open (longC shortC : Bool) (sl tp price : ℚ) (ts : ℕ)
    (eps : ℚ) (ex : Option ℚ) (tbl : List Eurusd.Trade)
    (h : Eurusd.countOpen tbl ≤ 1) :
    Eurusd.countOpen (Eurusd.handle_strategy longC shortC sl tp price ts eps ex tbl) ≤ 1 ∧
    ∀ (sl' tp' : ℚ) (oL oS : Bool) (price' : ℚ) (ts' : ℕ) (ex' : Option ℚ)
      (s : Usdjpy.State),
      ((Usdjpy.strategy sl' tp' oL oS price' ts' ex' s).pos).toList.length ≤ 1 := by
  constructor
  · unfold Eurusd.handle_strategy
    split
    · exact le_trans (Eurusd.countOpen_map_closeOne_le price eps ts tbl) h
    next hany =>
      have h0 : Eurusd.countOpen (tbl.map (Eurusd.closeOne price eps ts)) = 0 :=
        Eurusd.countOpen_eq_zero_of_not_any _ (Bool.eq_false_iff.mpr hany)
      split
      · rw [Eurusd.countOpen_append, h0]
        unfold Eurusd.countOpen
        rw [List.filter_singleton]
        simp [Eurusd.isOpen_newTrade]
      · omega
  · intro sl' tp' oL oS price' ts' ex' s
    cases hpos : (Usdjpy.strategy sl' tp' oL oS price' ts' ex' s).pos <;> simp

/-- Witness for C1 at a concrete store state. -/
theorem C1_witness :
    Eurusd.countOpen [] ≤ 1 ∧
    (Eurusd.countOpen (Eurusd.handle_strategy true false 20 30 1.1 0 (1/100000) none []) ≤ 1 ∧
     ∀ (sl' tp' : ℚ) (oL oS : Bool) (price' : ℚ) (ts' : ℕ) (ex' : Option ℚ)
       (s : Usdjpy.State),
       ((Usdjpy.strategy sl' tp' oL oS price' ts' ex' s).pos).toList.length ≤ 1) :=
  ⟨by simp [Eurusd.countOpen],
   C1_at_most_one_open true false 20 30 1.1 0 (1/100000) none []
     (by simp [Eurusd.countOpen])⟩

/-- Counterexample to claim C2 as stated: in the EURUSD deployment an
evaluation that starts with an OPEN position (one open row) and whose price
hits the take-profit does evaluate the entry check after closing, and opens a
new position in the same `handle_strategy` call — the result holds both the
just-closed row and a new open row stamped with this evaluation's time. -/
theorem C2_counterexample :
    Eurusd.isOpen ⟨0, 1.1, Dir.LONG, none, 1.098, 1.103, none, none, none⟩ = true ∧
    Eurusd.handle_strategy true false 20 30 1.103 5 (1/100000) none
        [⟨0, 1.1, Dir.LONG, none, 1.098, 1.103, none, none, none⟩] =
      [⟨0, 1.1, Dir.LONG, none, 1.098, 1.103, some 5, some 1.103, some 30⟩,
       ⟨5, 1.103, Dir.LONG, none, 1.101, 1.106, none, none, none⟩] ∧
    Eurusd.isOpen ⟨5, 1.103, Dir.LONG, none, 1.101, 1.106, none, none, none⟩ = true := by
  refine ⟨rfl, ?_, rfl⟩
  norm_num [Eurusd.handle_strategy, Eurusd.newTrade, Eurusd.closeOne, Eurusd.isOpen,
    Eurusd.hitTp, Eurusd.hitSl, roundTo, pyRound]
  simp

/-- Claim C2 (amended): in the USDJPY deployment a strategy that is OPEN at the
start of an evaluation never gains a new position during that evaluation (the
slot is either cleared or the state is unchanged).  In the EURUSD deployment
the entry check is skipped only when a row is still open after the exit
processing; `handle_strategy` then returns the close pass unchanged, inserting
nothing. -/
theorem C2_amended (sl tp : ℚ) (oL oS : Bool) (price : ℚ) (ts : ℕ) (ex : Option ℚ)
    (s : Usdjpy.State) (p : Usdjpy.Pos) (hp : s.pos = some p)
    (longC shortC : Bool) (sl' tp' price' : ℚ) (ts' : ℕ) (eps' : ℚ) (ex' : Option ℚ)
    (tbl : List Eurusd.Trade)
    (hopen : (tbl.map (Eurusd.closeOne price' eps' ts')).any Eurusd.isOpen = true) :
    ((Usdjpy.strategy sl tp oL oS price ts ex s).pos = none ∨
      Usdjpy.strategy sl tp oL oS price ts ex s = s) ∧
    Eurusd.handle_strategy longC shortC sl' tp' price' ts' eps' ex' tbl =
      tbl.map (Eurusd.closeOne price' eps' ts') := by
  constructor
  · rcases s with ⟨pos, tr⟩
    have hp2 : pos = some p := hp
    subst hp2
    rw [Usdjpy.strategy_of_open]
    split
    · left
      rfl
    · right
      rfl
  · unfold Eurusd.handle_strategy
    rw [if_pos hopen]

/-- Witness for C2 (amended) at a concrete open state whose position is not
hit. -/
theorem C2_witness :
    (Usdjpy.State.pos ⟨some ⟨0, 110, Dir.LONG, 109.8, 110.3, none⟩, []⟩ =
      some ⟨0, 110, Dir.LONG, 109.8, 110.3, none⟩) ∧
    ([(⟨0, 1.1, Dir.LONG, none, 1.098, 1.103, none, none, none⟩ : Eurusd.Trade)].map
        (Eurusd.closeOne 1.1 (1/100000) 9)).any Eurusd.isOpen = true ∧
    (((Usdjpy.strategy 20 30 false false 110 1 none
        ⟨some ⟨0, 110, Dir.LONG, 109.8, 110.3, none⟩, []⟩).pos = none ∨
      Usdjpy.strategy 20 30 false false 110 1 none
          ⟨some ⟨0, 110, Dir.LONG, 109.8, 110.3, none⟩, []⟩ =
        ⟨some ⟨0, 110, Dir.LONG, 109.8, 110.3, none⟩, []⟩) ∧
     Eurusd.handle_strategy false false 20 30 1.1 9 (1/100000) none
         [⟨0, 1.1, Dir.LONG, none, 1.098, 1.103, none, none, none⟩] =
       [(⟨0, 1.1, Dir.LONG, none, 1.098, 1.103, none, none, none⟩ : Eurusd.Trade)].map
         (Eurusd.closeOne 1.1 (1/100000) 9)) :=
  ⟨rfl,
   by norm_num [Eurusd.closeOne, Eurusd.isOpen, Eurusd.hitTp, Eurusd.hitSl],
   C2_amended 20 30 false false 110 1 none _ _ rfl false false 20 30 1.1 9 (1/100000)
     none _
     (by norm_num [Eurusd.closeOne, Eurusd.isOpen, Eurusd.hitTp, Eurusd.hitSl])⟩

/-- Claim C3: opening LONG at price 1.1000 with SL distance 20 and TP distance
30 pips (pip size 0.0001) stores `sl_price = 1.0980` and `tp_price = 1.1030`,
and a subsequent evaluation at price 1.1030 closes the position with
`result_pips = 30.0` (EURUSD deployment, whose pip size is 0.0001). -/
theorem C3_round_trip :
    Eurusd.handle_strategy true false 20 30 1.1 0 (1/100000) none [] =
      [⟨0, 1.1, Dir.LONG, none, 1.098, 1.103, none, none, none⟩] ∧
    Eurusd.handle_strategy false false 20 30 1.103 1 (1/100000) none
        [⟨0, 1.1, Dir.LONG, none, 1.098, 1.103, none, none, none⟩] =
      [⟨0, 1.1, Dir.LONG, none, 1.098, 1.103, some 1, some 1.103, some 30⟩] := by
  constructor <;>
    norm_num [Eurusd.handle_strategy, Eurusd.newTrade, Eurusd.closeOne, Eurusd.isOpen,
      Eurusd.hitTp, Eurusd.hitSl, roundTo, pyRound]

/-- Counterexample to claim C4 as stated: when the price overshoots the target
(price 1.1050, TP 1.1030, LONG from 1.1000), the recorded `close_price` is the
evaluation price 1.1050 but `result_pips` is 30.0, computed from the TP target
price — not `(close_price − open_price) × 10000` rounded, which would be
50.0. -/
theorem C4_counterexample :
    (Eurusd.closeOne 1.105 (1/100000) 7
        ⟨0, 1.1, Dir.LONG, none, 1.098, 1.103, none, none, none⟩).close_price =
      some 1.105 ∧
    (Eurusd.closeOne 1.105 (1/100000) 7
        ⟨0, 1.1, Dir.LONG, none, 1.098, 1.103, none, none, none⟩).result_pips =
      some 30 ∧
    roundTo ((1.105 - 1.1) * 10000) 1 = 50 ∧ (30 : ℚ) ≠ 50 := by
  refine ⟨?_, ?_, ?_, by norm_num⟩ <;>
    norm_num [Eurusd.closeOne, Eurusd.hitTp, Eurusd.hitSl, roundTo, pyRound]

/-- Claim C4 (amended): for every close transition, `result_pips` equals
`(target_price − open_price)` signed by direction and scaled by the
instrument's pip constant (10000 for EURUSD, 100 for USDJPY), rounded to one
decimal, where `target_price` is `tp_price` when `hit_tp` else `sl_price`;
the recorded `close_price` is the current evaluation price, which may differ
from `target_price`. -/
theorem C4_amended (price eps : ℚ) (ts : ℕ) (t : Eurusd.Trade)
    (h1 : t.close_time = none)
    (h2 : (Eurusd.hitTp price eps t || Eurusd.hitSl price eps t) = true)
    (sl' tp' : ℚ) (oL oS : Bool) (price' : ℚ) (ts' : ℕ) (ex' : Option ℚ)
    (p : Usdjpy.Pos) (tr : List Usdjpy.Trade)
    (h3 : (Usdjpy.hitTp price' p || Usdjpy.hitSl price' p) = true) :
    ((Eurusd.closeOne price eps ts t).close_price = some price ∧
     (Eurusd.closeOne price eps ts t).result_pips =
       some (roundTo
         (((if Eurusd.hitTp price eps t then t.tp_price else t.sl_price) - t.open_price) *
           (if t.direction = Dir.LONG then 10000 else -10000)) 1)) ∧
    (Usdjpy.strategy sl' tp' oL oS price' ts' ex' ⟨some p, tr⟩).trades =
      tr ++ [⟨p, ts', price',
        roundTo ((if p.direction = Dir.LONG then
                    (if Usdjpy.hitTp price' p then p.tp_price else p.sl_price) - p.open_price
                  else
                    -((if Usdjpy.hitTp price' p then p.tp_price else p.sl_price) -
                       p.open_price)) * 100) 1⟩] := by
  refine ⟨?_, ?_⟩
  · unfold Eurusd.closeOne
    rw [if_pos h1, h2]
    simp
  · rw [Usdjpy.strategy_of_open, if_pos h3]
    rfl

/-- Witness for C4 (amended): a LONG EURUSD trade hit at its TP price and a
LONG USDJPY position hit at its TP price. -/
theorem C4_witness :
    ((⟨0, 1.1, Dir.LONG, none, 1.098, 1.103, none, none, none⟩ :
        Eurusd.Trade).close_time = none ∧
     (Eurusd.hitTp 1.103 (1/100000) ⟨0, 1.1, Dir.LONG, none, 1.098, 1.103, none, none, none⟩ ||
      Eurusd.hitSl 1.103 (1/100000) ⟨0, 1.1, Dir.LONG, none, 1.098, 1.103, none, none, none⟩) =
       true ∧
     (Usdjpy.hitTp 110.3 ⟨0, 110, Dir.LONG, 109.8, 110.3, none⟩ ||
      Usdjpy.hitSl 110.3 ⟨0, 110, Dir.LONG, 109.8, 110.3, none⟩) = true) ∧
    (((Eurusd.closeOne 1.103 (1/100000) 1
         ⟨0, 1.1, Dir.LONG, none, 1.098, 1.103, none, none, none⟩).close_price =
        some 1.103 ∧
      (Eurusd.closeOne 1.103 (1/100000) 1
         ⟨0, 1.1, Dir.LONG, none, 1.098, 1.103, none, none, none⟩).result_pips =
        some (roundTo
          (((if Eurusd.hitTp 1.103 (1/100000)
                 ⟨0, 1.1, Dir.LONG, none, 1.098, 1.103, none, none, none⟩ then
               (1.103 : ℚ) else 1.098) - 1.1) *
            (if (Dir.LONG : Dir) = Dir.LONG then 10000 else -10000)) 1)) ∧
     (Usdjpy.strategy 20 30 false false 110.3 1 none
         ⟨some ⟨0, 110, Dir.LONG, 109.8, 110.3, none⟩, []⟩).trades =
       [] ++ [⟨⟨0, 110, Dir.LONG, 109.8, 110.3, none⟩, 1, 110.3,
         roundTo ((if (Dir.LONG : Dir) = Dir.LONG then
                     (if Usdjpy.hitTp 110.3 ⟨0, 110, Dir.LONG, 109.8, 110.3, none⟩ then
                        (110.3 : ℚ) else 109.8) - 110
                   else
                     -((if Usdjpy.hitTp 110.3 ⟨0, 110, Dir.LONG, 109.8, 110.3, none⟩ then
                          (110.3 : ℚ) else 109.8) - 110)) * 100) 1⟩]) :=
  ⟨⟨rfl, by norm_num [Eurusd.hitTp, Eurusd.hitSl],
    by norm_num [Usdjpy.hitTp, Usdjpy.hitSl, Usdjpy.EPS]⟩,
   C4_amended 1.103 (1/100000) 1 _ rfl
     (by norm_num [Eurusd.hitTp, Eurusd.hitSl]) 20 30 false false 110.3 1 none _ []
     (by norm_num [Usdjpy.hitTp, Usdjpy.hitSl, Usdjpy.EPS])⟩

namespace Eurusd

theorem newTrade_not_hit (longC : Bool) (sl tp price eps : ℚ) (ts : ℕ) (ex : Option ℚ)
    (hsl : eps + 1/2000000 < sl/10000) (htp : eps + 1/2000000 < tp/10000) :
    (hitTp price eps (newTrade longC sl tp price ts ex) ||
      hitSl price eps (newTrade longC sl tp price ts ex)) = false := by
  have h1 := roundTo_ge (price + (1/10000) * tp) 6
  have h2 := roundTo_le (price - (1/10000) * sl) 6
  have h3 := roundTo_le (price - (1/10000) * tp) 6
  have h4 := roundTo_ge (price + (1/10000) * sl) 6
  norm_num at h1 h2 h3 h4
  cases longC <;>
    simp only [newTrade, hitTp, hitSl] <;>
    simp <;>
    constructor <;> linarith

end Eurusd

namespace Usdjpy

theorem newPos_not_hit (oL : Bool) (sl tp price : ℚ) (ts : ℕ) (ex : Option ℚ)
    (hsl : (1:ℚ)/100000 + 1/2000 < sl/100) (htp : (1:ℚ)/100000 + 1/2000 < tp/100) :
    (hitTp price (newPos oL sl tp price ts ex) ||
      hitSl price (newPos oL sl tp price ts ex)) = false := by
  have h1 := roundTo_ge (price + (1/100) * tp) 3
  have h2 := roundTo_le (price - (1/100) * sl) 3
  have h3 := roundTo_le (price - (1/100) * tp) 3
  have h4 := roundTo_ge (price + (1/100) * sl) 3
  norm_num at h1 h2 h3 h4
  cases oL <;>
    simp only [newPos, hitTp, hitSl, EPS] <;>
    simp <;>
    constructor <;> linarith

end Usdjpy

/-- Claim C5: re-running the same strategy evaluation a second time against the
store state left by the first run, with no new price sample, does not create a
second concurrent open Position and does not append a duplicate ClosedTrade.
EURUSD conjunct: `handle_strategy` is idempotent on the table (the second run
changes nothing at all).  USDJPY conjunct: the second run appends no trade (and
the slot structurally holds at most one position).  The hypotheses say that one
pip's worth of SL/TP distance exceeds the comparison epsilon plus the rounding
error, which holds for every configured strategy (`sl, tp ≥ 12` pips,
`eps = 1e-5`). -/
theorem C5_idempotent (longC shortC : Bool) (sl tp price : ℚ) (ts : ℕ) (eps : ℚ)
    (ex : Option ℚ) (tbl : List Eurusd.Trade)
    (hsl : eps + 1/2000000 < sl/10000) (htp : eps + 1/2000000 < tp/10000)
    (sl' tp' : ℚ) (oL oS : Bool) (price' : ℚ) (ts' : ℕ) (ex' : Option ℚ)
    (s : Usdjpy.State)
    (hsl' : (1:ℚ)/100000 + 1/2000 < sl'/100) (htp' : (1:ℚ)/100000 + 1/2000 < tp'/100) :
    Eurusd.handle_strategy longC shortC sl tp price ts eps ex
        (Eurusd.handle_strategy longC shortC sl tp price ts eps ex tbl) =
      Eurusd.handle_strategy longC shortC sl tp price ts eps ex tbl ∧
    (Usdjpy.strategy sl' tp' oL oS price' ts' ex'
        (Usdjpy.strategy sl' tp' oL oS price' ts' ex' s)).trades =
      (Usdjpy.strategy sl' tp' oL oS price' ts' ex' s).trades := by
  constructor
  · by_cases hany : ((tbl.map (Eurusd.closeOne price eps ts)).any Eurusd.isOpen) = true
    · have hf : Eurusd.handle_strategy longC shortC sl tp price ts eps ex tbl =
          tbl.map (Eurusd.closeOne price eps ts) := by
        unfold Eurusd.handle_strategy
        rw [if_pos hany]
      rw [hf]
      unfold Eurusd.handle_strategy
      rw [Eurusd.map_closeOne_idem, if_pos hany]
    · have hany' : ((tbl.map (Eurusd.closeOne price eps ts)).any Eurusd.isOpen) = false :=
        Bool.eq_false_iff.mpr hany
      by_cases hsig : (longC || shortC) = true
      · have hf : Eurusd.handle_strategy longC shortC sl tp price ts eps ex tbl =
            tbl.map (Eurusd.closeOne price eps ts) ++
              [Eurusd.newTrade longC sl tp price ts ex] := by
          unfold Eurusd.handle_strategy
          rw [if_neg hany, if_pos hsig]
        rw [hf]
        have hmap : (tbl.map (Eurusd.closeOne price eps ts) ++
              [Eurusd.newTrade longC sl tp price ts ex]).map (Eurusd.closeOne price eps ts) =
            tbl.map (Eurusd.closeOne price eps ts) ++
              [Eurusd.newTrade longC sl tp price ts ex] := by
          rw [List.map_append, Eurusd.map_closeOne_idem]
          congr 1
          rw [List.map_singleton,
            Eurusd.closeOne_of_not_hit price eps ts _ (Eurusd.newTrade_not_hit longC sl tp price eps ts ex hsl htp)]
        have hopen2 : ((tbl.map (Eurusd.closeOne price eps ts) ++
              [Eurusd.newTrade longC sl tp price ts ex]).map
                (Eurusd.closeOne price eps ts)).any Eurusd.isOpen = true := by
          rw [hmap, List.any_append]
          simp [Eurusd.isOpen_newTrade]
        unfold Eurusd.handle_strategy
        rw [if_pos hopen2, hmap]
      · have hf : Eurusd.handle_strategy longC shortC sl tp price ts eps ex tbl =
            tbl.map (Eurusd.closeOne price eps ts) := by
          unfold Eurusd.handle_strategy
          rw [if_neg hany, if_neg (by rw [Bool.eq_false_iff.mpr hsig]; simp)]
        rw [hf]
        unfold Eurusd.handle_strategy
        rw [Eurusd.map_closeOne_idem, if_neg hany,
          if_neg (by rw [Bool.eq_false_iff.mpr hsig]; simp)]
  · rcases s with ⟨pos, tr⟩
    cases pos with
    | none =>
      by_cases hsig : (oL || oS) = true
      · rw [Usdjpy.strategy_of_flat, if_pos hsig, Usdjpy.strategy_of_open,
          if_neg (by rw [Usdjpy.newPos_not_hit oL sl' tp' price' ts' ex' hsl' htp']; simp)]
      · rw [Usdjpy.strategy_of_flat, if_neg, Usdjpy.strategy_of_flat, if_neg] <;>
          rw [Bool.eq_false_iff.mpr hsig] <;> simp
    | some p =>
      by_cases hh : (Usdjpy.hitTp price' p || Usdjpy.hitSl price' p) = true
      · rw [Usdjpy.strategy_of_open, if_pos hh]
        exact Usdjpy.strategy_trades_of_flat sl' tp' oL oS price' ts' ex' _
      · rw [Usdjpy.strategy_of_open, if_neg hh, Usdjpy.strategy_of_open, if_neg hh]

/-- Witness for C5 at the classic strategy's parameters (SL 20, TP 30,
eps 1e-5) on an empty EURUSD table and a flat USDJPY state. -/
theorem C5_witness :
    ((1:ℚ)/100000 + 1/2000000 < 20/10000 ∧ (1:ℚ)/100000 + 1/2000000 < 30/10000 ∧
     (1:ℚ)/100000 + 1/2000 < 20/100 ∧ (1:ℚ)/100000 + 1/2000 < 30/100) ∧
    (Eurusd.handle_strategy true false 20 30 1.1 0 (1/100000) none
        (Eurusd.handle_strategy true false 20 30 1.1 0 (1/100000) none []) =
      Eurusd.handle_strategy true false 20 30 1.1 0 (1/100000) none [] ∧
     (Usdjpy.strategy 20 30 true false 110 0 none
        (Usdjpy.strategy 20 30 true false 110 0 none ⟨none, []⟩)).trades =
      (Usdjpy.strategy 20 30 true false 110 0 none ⟨none, []⟩).trades) :=
  ⟨⟨by norm_num, by norm_num, by norm_num, by norm_num⟩,
   C5_idempotent true false 20 30 1.1 0 (1/100000) none [] (by norm_num) (by norm_num)
     20 30 true false 110 0 none ⟨none, []⟩ (by norm_num) (by norm_num)⟩

/-- Counterexample to claim C6 as stated: with only 2 price samples the RSI has
insufficient history (`rsi = None`) and both classic entry signals are false,
yet the USDJPY `strategy` still evaluates the exit check for its open
position and closes it — the stored Position and state are not left
unchanged. -/
theorem C6_counterexample :
    Usdjpy.rsi [1, 1] 14 = none ∧
    Usdjpy.classicOpenLong [1, 1] = false ∧
    Usdjpy.classicOpenShort [1, 1] = false ∧
    Usdjpy.strategy 20 30 (Usdjpy.classicOpenLong [1, 1]) (Usdjpy.classicOpenShort [1, 1])
        110.3 1 none ⟨some ⟨0, 110, Dir.LONG, 109.8, 110.3, none⟩, []⟩ =
      ⟨none, [⟨⟨0, 110, Dir.LONG, 109.8, 110.3, none⟩, 1, 110.3, 30⟩]⟩ := by
  have hr : Usdjpy.rsi [1, 1] 14 = none := by
    unfold Usdjpy.rsi
    rw [if_pos (by norm_num)]
  refine ⟨hr, ?_, ?_, ?_⟩
  · unfold Usdjpy.classicOpenLong
    rw [hr]
  · unfold Usdjpy.classicOpenShort
    rw [hr]
  · rw [Usdjpy.strategy_of_open,
      if_pos (by norm_num [Usdjpy.hitTp, Usdjpy.hitSl, Usdjpy.EPS])]
    norm_num [Usdjpy.closedTrade, Usdjpy.hitTp, Usdjpy.EPS, roundTo, pyRound]

/-- Claim C6 (amended): when an indicator a strategy depends on has
insufficient history, no new position can be opened for it and a FLAT state is
left unchanged, and in every strategy path but the USDJPY classic/anomaly exit
check the state is left completely untouched.  In detail: (1) USDJPY classic —
with fewer than 15 prices both RSI signals are false and a FLAT state is
unchanged; (2) USDJPY anomaly — when `z_score` yields no value both signals
are false and a FLAT state is unchanged; (3) USDJPY fractal — with fewer than
55 prices the strategy is not invoked at all, any state (OPEN included) is
untouched; (4)-(5) EURUSD — with fewer than 15 prices `safe_rsi` yields no
value, and whenever it does, the whole cycle skips and all three tables (OPEN
rows included) are untouched; (6) EURUSD anomaly — with fewer than 51 prices
its table is untouched; (7) EURUSD fractal — with fewer than 50 prices its
table is untouched.  Only an OPEN USDJPY classic/anomaly strategy still has
its exit check evaluated (the counterexample). -/
theorem C6_amended (prices : List ℚ) (pricesR : List ℝ) :
    (prices.length < 15 →
      Usdjpy.classicOpenLong prices = false ∧
      Usdjpy.classicOpenShort prices = false ∧
      ∀ (sl tp price : ℚ) (ts : ℕ) (ex : Option ℚ) (tr : List Usdjpy.Trade),
        Usdjpy.strategy sl tp (Usdjpy.classicOpenLong prices)
          (Usdjpy.classicOpenShort prices) price ts ex ⟨none, tr⟩ = ⟨none, tr⟩) ∧
    (Usdjpy.z_score pricesR 50 = none →
      Usdjpy.anomalyOpenLongB pricesR = false ∧
      Usdjpy.anomalyOpenShortB pricesR = false ∧
      ∀ (sl tp price : ℚ) (ts : ℕ) (ex : Option ℚ) (tr : List Usdjpy.Trade),
        Usdjpy.strategy sl tp (Usdjpy.anomalyOpenLongB pricesR)
          (Usdjpy.anomalyOpenShortB pricesR) price ts ex ⟨none, tr⟩ = ⟨none, tr⟩) ∧
    (prices.length < 55 →
      ∀ (price : ℚ) (ts : ℕ) (s : Usdjpy.State),
        Usdjpy.fractalStep prices price ts s = s) ∧
    (pricesR.length < 15 → Eurusd.safe_rsiR pricesR 14 = none) ∧
    (Eurusd.safe_rsiR pricesR 14 = none →
      ∀ (ts : ℕ) (tbl1 tbl2 tbl3 : List Eurusd.TradeR),
        Eurusd.cycle pricesR ts tbl1 tbl2 tbl3 = (tbl1, tbl2, tbl3)) ∧
    (pricesR.length < 51 →
      ∀ (ts : ℕ) (tbl1 tbl2 tbl3 : List Eurusd.TradeR),
        (Eurusd.cycle pricesR ts tbl1 tbl2 tbl3).2.1 = tbl2) ∧
    (pricesR.length < 50 →
      ∀ (ts : ℕ) (tbl1 tbl2 tbl3 : List Eurusd.TradeR),
        (Eurusd.cycle pricesR ts tbl1 tbl2 tbl3).2.2 = tbl3) := by
  refine ⟨?_, ?_, ?_, ?_, ?_, ?_, ?_⟩
  · intro h
    have hr : Usdjpy.rsi prices 14 = none := by
      unfold Usdjpy.rsi
      rw [if_pos (by omega)]
    have hL : Usdjpy.classicOpenLong prices = false := by
      unfold Usdjpy.classicOpenLong
      rw [hr]
    have hS : Usdjpy.classicOpenShort prices = false := by
      unfold Usdjpy.classicOpenShort
      rw [hr]
    refine ⟨hL, hS, ?_⟩
    intro sl tp price ts ex tr
    rw [Usdjpy.strategy_of_flat, hL, hS, if_neg]
    simp
  · intro hz
    have hL : Usdjpy.anomalyOpenLongB pricesR = false := by
      unfold Usdjpy.anomalyOpenLongB
      rw [hz]
    have hS : Usdjpy.anomalyOpenShortB pricesR = false := by
      unfold Usdjpy.anomalyOpenShortB
      rw [hz]
    refine ⟨hL, hS, ?_⟩
    intro sl tp price ts ex tr
    rw [Usdjpy.strategy_of_flat, hL, hS, if_neg]
    simp
  · intro h price ts s
    unfold Usdjpy.fractalStep
    rw [if_neg (by omega)]
  · intro h
    unfold Eurusd.safe_rsiR
    rw [if_pos (by omega)]
  · intro hz ts tbl1 tbl2 tbl3
    unfold Eurusd.cycle
    rw [hz]
  · intro h ts tbl1 tbl2 tbl3
    cases hrs : Eurusd.safe_rsiR pricesR 14 with
    | none =>
      unfold Eurusd.cycle
      rw [hrs]
    | some r =>
      unfold Eurusd.cycle
      rw [hrs]
      dsimp only
      rw [if_neg (by omega)]
  · intro h ts tbl1 tbl2 tbl3
    cases hrs : Eurusd.safe_rsiR pricesR 14 with
    | none =>
      unfold Eurusd.cycle
      rw [hrs]
    | some r =>
      unfold Eurusd.cycle
      rw [hrs]
      dsimp only
      rw [if_neg (by omega)]

/-- Witness for C6 (amended): the two-sample rational history exercises the
classic and fractal parts, the one-sample real history the anomaly and all
EURUSD parts. -/
theorem C6_witness :
    (([1, 1] : List ℚ).length < 15 ∧
     Usdjpy.z_score [(1:ℝ)] 50 = none ∧
     ([1, 1] : List ℚ).length < 55 ∧
     ([(1:ℝ)] : List ℝ).length < 15 ∧
     Eurusd.safe_rsiR [(1:ℝ)] 14 = none ∧
     ([(1:ℝ)] : List ℝ).length < 51 ∧
     ([(1:ℝ)] : List ℝ).length < 50) ∧
    ((Usdjpy.classicOpenLong [1, 1] = false ∧
      Usdjpy.classicOpenShort [1, 1] = false ∧
      ∀ (sl tp price : ℚ) (ts : ℕ) (ex : Option ℚ) (tr : List Usdjpy.Trade),
        Usdjpy.strategy sl tp (Usdjpy.classicOpenLong [1, 1])
          (Usdjpy.classicOpenShort [1, 1]) price ts ex ⟨none, tr⟩ = ⟨none, tr⟩) ∧
     (Usdjpy.anomalyOpenLongB [(1:ℝ)] = false ∧
      Usdjpy.anomalyOpenShortB [(1:ℝ)] = false ∧
      ∀ (sl tp price : ℚ) (ts : ℕ) (ex : Option ℚ) (tr : List Usdjpy.Trade),
        Usdjpy.strategy sl tp (Usdjpy.anomalyOpenLongB [(1:ℝ)])
          (Usdjpy.anomalyOpenShortB [(1:ℝ)]) price ts ex ⟨none, tr⟩ = ⟨none, tr⟩) ∧
     (∀ (price : ℚ) (ts : ℕ) (s : Usdjpy.State),
        Usdjpy.fractalStep [1, 1] price ts s = s) ∧
     Eurusd.safe_rsiR [(1:ℝ)] 14 = none ∧
     (∀ (ts : ℕ) (tbl1 tbl2 tbl3 : List Eurusd.TradeR),
        Eurusd.cycle [(1:ℝ)] ts tbl1 tbl2 tbl3 = (tbl1, tbl2, tbl3)) ∧
     (∀ (ts : ℕ) (tbl1 tbl2 tbl3 : List Eurusd.TradeR),
        (Eurusd.cycle [(1:ℝ)] ts tbl1 tbl2 tbl3).2.1 = tbl2) ∧
     (∀ (ts : ℕ) (tbl1 tbl2 tbl3 : List Eurusd.TradeR),
        (Eurusd.cycle [(1:ℝ)] ts tbl1 tbl2 tbl3).2.2 = tbl3)) := by
  have hz : Usdjpy.z_score [(1:ℝ)] 50 = none := by
    simp only [Usdjpy.z_score]
    rw [if_pos (by norm_num)]
  have hsafe : Eurusd.safe_rsiR [(1:ℝ)] 14 = none := by
    unfold Eurusd.safe_rsiR
    rw [if_pos (by norm_num)]
  exact ⟨⟨by norm_num, hz, by norm_num, by norm_num, hsafe, by norm_num, by norm_num⟩,
    (C6_amended [1, 1] [(1:ℝ)]).1 (by norm_num),
    (C6_amended [1, 1] [(1:ℝ)]).2.1 hz,
    (C6_amended [1, 1] [(1:ℝ)]).2.2.1 (by norm_num),
    (C6_amended [1, 1] [(1:ℝ)]).2.2.2.1 (by norm_num),
    (C6_amended [1, 1] [(1:ℝ)]).2.2.2.2.1 hsafe,
    (C6_amended [1, 1] [(1:ℝ)]).2.2.2.2.2.1 (by norm_num),
    (C6_amended [1, 1] [(1:ℝ)]).2.2.2.2.2.2 (by norm_num)⟩

theorem deltas_length : ∀ l : List ℚ, (deltas l).length = l.length - 1
  | [] => rfl
  | [_] => rfl
  | a :: b :: rest => by
    simp only [deltas, List.length_cons]
    rw [deltas_length (b :: rest)]
    simp

theorem deltas_pos_of_chain :
    ∀ l : List ℚ, l.Chain' (· < ·) → ∀ d ∈ deltas l, 0 < d
  | [], _, d, hd => by simp [deltas] at hd
  | [_], _, d, hd => by simp [deltas] at hd
  | a :: b :: rest, hc, d, hd => by
    rw [List.chain'_cons] at hc
    simp only [deltas, List.mem_cons] at hd
    rcases hd with hd | hd
    · rw [hd]
      exact sub_pos.mpr hc.1
    · exact deltas_pos_of_chain (b :: rest) hc.2 d hd

theorem losses_sum_of_pos (l : List ℚ) (h : ∀ d ∈ deltas l, 0 < d) :
    (losses l).sum = 0 := by
  apply List.sum_eq_zero
  intro x hx
  unfold losses at hx
  rw [List.mem_map] at hx
  obtain ⟨d, hd, hdx⟩ := hx
  rw [← hdx, max_eq_right (neg_nonpos.mpr (le_of_lt (h d hd)))]

theorem gains_sum_pos (l : List ℚ) (h : ∀ d ∈ deltas l, 0 < d)
    (hne : deltas l ≠ []) : 0 < (gains l).sum := by
  apply List.sum_pos
  · intro x hx
    unfold gains at hx
    rw [List.mem_map] at hx
    obtain ⟨d, hd, hdx⟩ := hx
    rw [← hdx]
    exact lt_max_of_lt_left (h d hd)
  · unfold gains
    simpa using hne

theorem lastN_length_of_le {α : Type} (l : List α) (k : ℕ) (h : k ≤ l.length) :
    (lastN l k).length = k := by
  simp only [lastN, List.length_drop]
  omega

/-- Counterexample to claim C7 as stated: on a constant 15-sample history both
the average gain and the average loss are zero, and the USDJPY `rsi` returns
100, not a neutral midpoint value; the EURUSD `safe_rsi` returns 50 on the
same input, exhibiting the divergence. -/
theorem C7_counterexample :
    Usdjpy.rsi [1, 1, 1, 1, 1, 1, 1, 1, 1, 1, 1, 1, 1, 1, 1] 14 = some 100 ∧
    Eurusd.safe_rsi [1, 1, 1, 1, 1, 1, 1, 1, 1, 1, 1, 1, 1, 1, 1] 14 = some 50 := by
  constructor <;>
    norm_num [Usdjpy.rsi, Eurusd.safe_rsi, lastN, deltas, gains, losses]

/-- Claim C7 (amended): whenever the average loss over the last `n` deltas is
zero, the USDJPY `rsi` returns 100 — even when the average gain is also zero —
while the EURUSD `safe_rsi` returns 100 for a strictly positive average gain
and the neutral midpoint 50 otherwise; in particular on any strictly
increasing history (e.g. 20 strictly increasing samples with `n = 14`) both
return exactly 100. -/
theorem C7_amended (vals : List ℚ) (n : ℕ) (h1 : n + 1 ≤ vals.length) (h2 : 1 ≤ n) :
    ((losses (lastN vals (n + 1))).sum = 0 →
      Usdjpy.rsi vals n = some 100 ∧
      Eurusd.safe_rsi vals n =
        some (if 0 < (gains (lastN vals (n + 1))).sum / (n : ℚ) then 100 else 50)) ∧
    (vals.Chain' (· < ·) →
      Usdjpy.rsi vals n = some 100 ∧ Eurusd.safe_rsi vals n = some 100) := by
  have hrel : (lastN vals (n + 1)).length = n + 1 := lastN_length_of_le vals (n + 1) h1
  have hglen : (gains (lastN vals (n + 1))).length = n := by
    unfold gains
    rw [List.length_map, deltas_length, hrel]
    omega
  have ersi : Usdjpy.rsi vals n =
      if vals.length < n + 1 then none
      else if (losses (lastN vals (n + 1))).sum / (n : ℚ) = 0 then some 100
      else some (100 - 100 / (1 + (gains (lastN vals (n + 1))).sum / n /
        ((losses (lastN vals (n + 1))).sum / n))) := rfl
  have esafe : Eurusd.safe_rsi vals n =
      if vals.length < n + 1 then none
      else if (lastN vals (n + 1)).length < 2 then none
      else if (gains (lastN vals (n + 1))).length < n then none
      else if (losses (lastN vals (n + 1))).sum / (n : ℚ) = 0 then
        some (if 0 < (gains (lastN vals (n + 1))).sum / (n : ℚ) then 100 else 50)
      else some (100 - 100 / (1 + ((gains (lastN vals (n + 1))).sum / n) /
        ((losses (lastN vals (n + 1))).sum / n))) := rfl
  have main : (losses (lastN vals (n + 1))).sum = 0 →
      Usdjpy.rsi vals n = some 100 ∧
      Eurusd.safe_rsi vals n =
        some (if 0 < (gains (lastN vals (n + 1))).sum / (n : ℚ) then 100 else 50) := by
    intro hz
    constructor
    · rw [ersi, if_neg (by omega), if_pos (by rw [hz]; simp)]
    · rw [esafe, if_neg (by omega), if_neg (by omega), if_neg (by omega),
        if_pos (by rw [hz]; simp)]
  refine ⟨main, ?_⟩
  intro hchain
  have hchain2 : (lastN vals (n + 1)).Chain' (· < ·) :=
    hchain.sublist (List.drop_sublist _ _)
  have hpos := deltas_pos_of_chain (lastN vals (n + 1)) hchain2
  have hz : (losses (lastN vals (n + 1))).sum = 0 :=
    losses_sum_of_pos (lastN vals (n + 1)) hpos
  have hne : deltas (lastN vals (n + 1)) ≠ [] := by
    have : (deltas (lastN vals (n + 1))).length = n := by
      rw [deltas_length, hrel]
      omega
    intro hemp
    rw [hemp] at this
    simp at this
    omega
  have hgain : 0 < (gains (lastN vals (n + 1))).sum :=
    gains_sum_pos (lastN vals (n + 1)) hpos hne
  obtain ⟨hu, he⟩ := main hz
  refine ⟨hu, ?_⟩
  rw [he, if_pos]
  exact div_pos hgain (by positivity)

/-- Witness for C7 at the strictly increasing 20-sample history `incr20`. -/
theorem C7_witness :
    (14 + 1 ≤ incr20.length ∧ 1 ≤ 14 ∧ incr20.Chain' (· < ·)) ∧
    (Usdjpy.rsi incr20 14 = some 100 ∧ Eurusd.safe_rsi incr20 14 = some 100) :=
  ⟨⟨by norm_num [incr20], by norm_num,
    by norm_num [incr20, List.chain'_cons]⟩,
   (C7_amended incr20 14 (by norm_num [incr20]) (by norm_num)).2
     (by norm_num [incr20, List.chain'_cons])⟩

/-- Counterexample to claim C9 as stated: on the window `[1,2,5,5,1]` the
claimed iff-condition fails (`c > d` is `5 > 5`), yet the USDJPY fractal test
flags `c` as a local high, because it checks only `c = max` without the strict
neighbour conditions. -/
theorem C9_counterexample :
    Usdjpy.isHi [1, 2, 5, 5, 1] = true ∧
    ¬((5:ℚ) = max 1 (max 2 (max 5 (max 5 1))) ∧ (2:ℚ) < 5 ∧ (5:ℚ) < 5) := by
  constructor
  · norm_num [Usdjpy.isHi, lastN, max_def]
  · intro hcon
    exact absurd hcon.2.2 (by norm_num)

/-- Claim C9 (amended): over the last five samples `[a,b,c,d,e]` the EURUSD
fractal test flags `c` as a local high iff `c = max(a,b,c,d,e) ∧ c > b ∧
c > d` (and symmetrically as a local low with min and strict `<`); the USDJPY
test flags `c` iff `c = max(a,b,c,d,e)` (resp. `min`), without the strict
neighbour conditions.  The windows `[1,2,5,3,1]` and `[5,3,1,2,4]` are flagged
high resp. low by both deployments. -/
theorem C9_amended (a b c d e : ℚ) :
    (Eurusd.isHigh [a, b, c, d, e] = true ↔
      (c = max a (max b (max c (max d e))) ∧ b < c ∧ d < c)) ∧
    (Eurusd.isLow [a, b, c, d, e] = true ↔
      (c = min a (min b (min c (min d e))) ∧ c < b ∧ c < d)) ∧
    (Usdjpy.isHi [a, b, c, d, e] = true ↔ c = max a (max b (max c (max d e)))) ∧
    (Usdjpy.isLo [a, b, c, d, e] = true ↔ c = min a (min b (min c (min d e)))) ∧
    (Eurusd.isHigh [1, 2, 5, 3, 1] = true ∧ Eurusd.isLow [5, 3, 1, 2, 4] = true ∧
     Usdjpy.isHi [1, 2, 5, 3, 1] = true ∧ Usdjpy.isLo [5, 3, 1, 2, 4] = true) := by
  refine ⟨?_, ?_, ?_, ?_, ?_, ?_, ?_, ?_⟩
  · simp [Eurusd.isHigh, lastN, and_assoc]
  · simp [Eurusd.isLow, lastN, and_assoc]
  · simp [Usdjpy.isHi, lastN]
  · simp [Usdjpy.isLo, lastN]
  · norm_num [Eurusd.isHigh, lastN, max_def]
  · norm_num [Eurusd.isLow, lastN, min_def]
  · norm_num [Usdjpy.isHi, lastN, max_def]
  · norm_num [Usdjpy.isLo, lastN, min_def]

theorem logDeltas_replicate_one :
    ∀ k : ℕ, logDeltas (List.replicate (k + 1) (1:ℝ)) = List.replicate k 0
  | 0 => rfl
  | k + 1 => by
    rw [List.replicate_succ, List.replicate_succ]
    show Real.log (1 / 1) :: logDeltas (1 :: List.replicate k 1) = _
    rw [div_one, Real.log_one, ← List.replicate_succ,
      logDeltas_replicate_one k, List.replicate_succ]

theorem fmean_replicate_zero (k : ℕ) : fmean (List.replicate k (0:ℝ)) = 0 := by
  unfold fmean
  simp

theorem svar_replicate_zero (k : ℕ) : svar (List.replicate k (0:ℝ)) = 0 := by
  unfold svar
  rw [fmean_replicate_zero]
  simp

theorem stdev_replicate_zero (k : ℕ) : stdev (List.replicate k (0:ℝ)) = 0 := by
  unfold stdev
  rw [svar_replicate_zero]
  exact Real.sqrt_zero

theorem dropLast_replicate (k : ℕ) (a : ℝ) :
    (List.replicate (k + 1) a).dropLast = List.replicate k a := by
  rw [List.replicate_succ', List.dropLast_concat]

theorem lastN_of_length_le {α : Type} (l : List α) (k : ℕ) (h : l.length ≤ k) :
    lastN l k = l := by
  simp [lastN, Nat.sub_eq_zero_of_le h]

theorem logDeltas_const51 : logDeltas (List.replicate 51 (1:ℝ)) = List.replicate 50 0 := by
  have h := logDeltas_replicate_one 50
  norm_num at h
  exact h

theorem usdjpy_z_score_const : Usdjpy.z_score (List.replicate 51 (1:ℝ)) 50 = none := by
  have h1 : lastN (List.replicate 51 (1:ℝ)) (50 + 1) = List.replicate 51 1 :=
    lastN_of_length_le _ _ (by norm_num)
  have h3 : (List.replicate 50 (0:ℝ)).dropLast = List.replicate 49 0 := by
    norm_num
  simp only [Usdjpy.z_score, h1, logDeltas_const51, h3, stdev_replicate_zero,
    List.length_replicate]
  norm_num

theorem eurusd_anomZ_const : Eurusd.anomZ (List.replicate 51 (1:ℝ)) = some 0 := by
  have h1 : lastN (List.replicate 51 (1:ℝ)) 51 = List.replicate 51 1 :=
    lastN_of_length_le _ _ (by norm_num)
  simp only [Eurusd.anomZ, h1, logDeltas_const51, stdev_replicate_zero,
    List.length_replicate]
  norm_num

/-- Counterexample to claim C8 as stated: on a constant 51-sample window (whose
log-returns have standard deviation zero) the EURUSD deployment's z
computation yields the number 0.0 — not "no value". -/
theorem C8_counterexample :
    Eurusd.anomZ (List.replicate 51 (1:ℝ)) = some 0 ∧
    Eurusd.anomZ (List.replicate 51 (1:ℝ)) ≠ none := by
  refine ⟨eurusd_anomZ_const, ?_⟩
  rw [eurusd_anomZ_const]
  simp

/-- Claim C8 (amended): when the standard deviation of the window's log-returns
is exactly zero, the USDJPY `z_score` yields no value, while the EURUSD
deployment sets `z = 0.0`; in both deployments no z-score-based entry signal
can fire on such a window. -/
theorem C8_amended (vals : List ℝ)
    (h1 : stdev ((logDeltas (lastN vals (50 + 1))).dropLast) = 0)
    (h2 : stdev (logDeltas (lastN vals 51)) = 0)
    (h3 : 51 ≤ vals.length) :
    Usdjpy.z_score vals 50 = none ∧
    (¬ Usdjpy.anomalyOpenLong vals ∧ ¬ Usdjpy.anomalyOpenShort vals) ∧
    Eurusd.anomZ vals = some 0 ∧
    (∀ rsi14 : ℚ, ¬ Eurusd.anomalyOpenLong 0 rsi14 ∧ ¬ Eurusd.anomalyOpenShort 0 rsi14) := by
  have hz : Usdjpy.z_score vals 50 = none := by
    simp only [Usdjpy.z_score]
    rw [if_neg (by omega), h1, if_pos rfl]
  refine ⟨hz, ⟨?_, ?_⟩, ?_, ?_⟩
  · rintro ⟨z, hzz, -⟩
    rw [hz] at hzz
    exact Option.noConfusion hzz
  · rintro ⟨z, hzz, -⟩
    rw [hz] at hzz
    exact Option.noConfusion hzz
  · simp only [Eurusd.anomZ]
    rw [if_neg (by omega)]
    split
    · rfl
    · have hs : (if 1 < (logDeltas (lastN vals 51)).length then
          stdev (logDeltas (lastN vals 51)) else (0:ℝ)) = 0 := by
        split
        · exact h2
        · rfl
      rw [hs]
      norm_num
  · intro rsi14
    constructor
    · rintro ⟨ha, -⟩
      norm_num at ha
    · rintro ⟨ha, -⟩
      norm_num at ha

/-- Witness for C8 at the constant 51-sample window. -/
theorem C8_witness :
    (stdev ((logDeltas (lastN (List.replicate 51 (1:ℝ)) (50 + 1))).dropLast) = 0 ∧
     stdev (logDeltas (lastN (List.replicate 51 (1:ℝ)) 51)) = 0 ∧
     51 ≤ (List.replicate 51 (1:ℝ)).length) ∧
    (Usdjpy.z_score (List.replicate 51 (1:ℝ)) 50 = none ∧
     (¬ Usdjpy.anomalyOpenLong (List.replicate 51 (1:ℝ)) ∧
      ¬ Usdjpy.anomalyOpenShort (List.replicate 51 (1:ℝ))) ∧
     Eurusd.anomZ (List.replicate 51 (1:ℝ)) = some 0 ∧
     (∀ rsi14 : ℚ, ¬ Eurusd.anomalyOpenLong 0 rsi14 ∧ ¬ Eurusd.anomalyOpenShort 0 rsi14)) := by
  have hlast : lastN (List.replicate 51 (1:ℝ)) 51 = List.replicate 51 1 :=
    lastN_of_length_le _ _ (by norm_num)
  have hA : stdev ((logDeltas (lastN (List.replicate 51 (1:ℝ)) (50 + 1))).dropLast) = 0 := by
    have h : lastN (List.replicate 51 (1:ℝ)) (50 + 1) = List.replicate 51 1 :=
      lastN_of_length_le _ _ (by norm_num)
    rw [h, logDeltas_const51]
    have h3 : (List.replicate 50 (0:ℝ)).dropLast = List.replicate 49 0 := by norm_num
    rw [h3, stdev_replicate_zero]
  have hB : stdev (logDeltas (lastN (List.replicate 51 (1:ℝ)) 51)) = 0 := by
    rw [hlast, logDeltas_const51, stdev_replicate_zero]
  exact ⟨⟨hA, hB, by norm_num⟩,
    C8_amended (List.replicate 51 (1:ℝ)) hA hB (by norm_num)⟩

/-- Counterexample to claim C10 as stated: on a constant 51-sample history the
two deployments' z-score computations disagree — the USDJPY `z_score` yields
no value while the EURUSD computation yields 0.0. -/
theorem C10_counterexample :
    Usdjpy.z_score (List.replicate 51 (1:ℝ)) 50 ≠
      Eurusd.anomZ (List.replicate 51 (1:ℝ)) := by
  rw [usdjpy_z_score_const, eurusd_anomZ_const]
  simp

/-- Claim C10 (amended): the two deployments do not compute the z-score
identically: the USDJPY variant takes mean and standard deviation over the
first `w − 1` log-returns (excluding the most recent) and yields no value when
the standard deviation is zero, while the EURUSD variant takes them over all
`w` returns and yields 0.0; the two computations agree (both yield no z-score)
whenever the history is shorter than 51 samples. -/
theorem C10_amended (vals : List ℝ) (h : vals.length < 51) :
    Usdjpy.z_score vals 50 = none ∧ Eurusd.anomZ vals = none := by
  constructor
  · simp only [Usdjpy.z_score]
    rw [if_pos (by omega)]
  · simp only [Eurusd.anomZ]
    rw [if_pos (by omega)]

/-- Witness for C10 (amended) at the empty history. -/
theorem C10_witness :
    ([] : List ℝ).length < 51 ∧
    (Usdjpy.z_score ([] : List ℝ) 50 = none ∧ Eurusd.anomZ ([] : List ℝ) = none) :=
  ⟨by norm_num, C10_amended [] (by norm_num)⟩
